import Mathlib

/-!
Verification of the kdsphere spherical KD-tree wrapper (src/kdsphere/kdsphere.py).

The Python code stores (lon, lat) points, embeds them on the unit sphere in 3D,
builds a scipy cKDTree over the embedded points, and answers angular queries by
delegating to the Euclidean tree.  We embed the module shallowly: real numbers
model floats, `Option ℝ` models a float that may be NaN (`none` = NaN, as
produced by numpy arcsin outside [-1, 1]), lists model arrays, and the external
cKDTree is modelled by its documented exact semantics over the stored points
(k smallest Euclidean distances in ascending order; ball queries return the
indices within the given Euclidean radius).
-/

open Real List

/-- A (longitude, latitude) pair in radians, one row of the (N, 2) input. -/
structure AngularPoint where
  lon : ℝ
  lat : ℝ

/-- A 3D Cartesian point, one row of the (N, 3) embedded array. -/
structure Point3 where
  x : ℝ
  y : ℝ
  z : ℝ

/-- Modelled from the spec: the repository file kdsphere/utils.py
(function spherical_to_cartesian) is not under src/; spec section 4.1 gives
its per-point computation x = cos(lat)*cos(lon), y = cos(lat)*sin(lon),
z = sin(lat), placing every point on the unit sphere. -/
noncomputable def spherical_to_cartesian (p : AngularPoint) : Point3 :=
  ⟨Real.cos p.lat * Real.cos p.lon,
   Real.cos p.lat * Real.sin p.lon,
   Real.sin p.lat⟩

/-- Modelled from the spec: spherical_to_cartesian with return_radius=True
reports the embedding radius, which is always 1 (section 4.1: "If wantRadius
is requested, the radius returned is always 1 for every point"). -/
def embedRadius : ℝ := 1

/-- Euclidean distance between two embedded 3D points (the metric used by the
external cKDTree). -/
noncomputable def dist3 (u v : Point3) : ℝ :=
  Real.sqrt ((u.x - v.x) ^ 2 + (u.y - v.y) ^ 2 + (u.z - v.z) ^ 2)

/-- Model of scipy.spatial.cKDTree: the structure is fully determined by the
point sequence it was built over; queries are specified below by their
documented semantics. -/
structure CKDTree where
  pts : List Point3

/-- Ordering of (distance, index) rows by distance, used to model the
ascending order of cKDTree k-NN results. -/
def rowLE (a b : ℝ × ℕ) : Prop := a.1 ≤ b.1

noncomputable instance : DecidableRel rowLE := fun a b => Real.decidableLE a.1 b.1

instance : IsTotal (ℝ × ℕ) rowLE := ⟨fun a b => le_total a.1 b.1⟩

instance : IsTrans (ℝ × ℕ) rowLE := ⟨fun _ _ _ h h' => le_trans h h'⟩

/-- Model of cKDTree.query (exact search, eps = 0): all (distance, index)
pairs sorted ascending by distance, truncated to the first k. -/
noncomputable def CKDTree.knnRows (t : CKDTree) (q : Point3) (k : ℕ) : List (ℝ × ℕ) :=
  (List.insertionSort rowLE ((t.pts.enum).map (fun ip => (dist3 ip.2 q, ip.1)))).take k

/-- Model of cKDTree.query_ball_point for one query point: the set of indices
of stored points within Euclidean distance r of q. -/
def CKDTree.ballPointSet (t : CKDTree) (q : Point3) (r : ℝ) : Set ℕ :=
  {j | ∃ h : j < t.pts.length, dist3 (t.pts.get ⟨j, h⟩) q ≤ r}

/-- Model of cKDTree.query_ball_tree: row i lists the indices of the other
tree's points within Euclidean distance r of this tree's point i. -/
noncomputable def CKDTree.query_ball_tree (t other : CKDTree) (r : ℝ) : List (Set ℕ) :=
  t.pts.map (fun p => other.ballPointSet p r)

/-- The KDSphere instance state: stored angular data, the embedded 3D data,
and the cKDTree built over the embedded data (kdsphere.py lines 17-20). -/
structure KDSphere where
  data : List AngularPoint
  data3d : List Point3
  kdtree : CKDTree

/-- KDSphere.__init__: store the data, embed it, build the cKDTree over the
embedded points. -/
noncomputable def KDSphere.mk_init (data : List AngularPoint) : KDSphere :=
  ⟨data, data.map spherical_to_cartesian, ⟨data.map spherical_to_cartesian⟩⟩

/-- Model of numpy arcsin on a scalar: NaN (here none) outside [-1, 1],
otherwise the principal arcsine. -/
noncomputable def npArcsin (t : ℝ) : Option ℝ :=
  if -1 ≤ t ∧ t ≤ 1 then some (Real.arcsin t) else none

/-- One entry of the conversion on kdsphere.py line 45:
dist_2d = 2 * np.arcsin(dist_3d * 0.5 / r). -/
noncomputable def chordToAngle (r d : ℝ) : Option ℝ :=
  (npArcsin (d * 0.5 / r)).map (fun a => 2 * a)

/-- The elementwise conversion of the whole chord-distance array. -/
noncomputable def convertDists (r : ℝ) (ds : List ℝ) : List (Option ℝ) :=
  ds.map (chordToAngle r)

/-- KDSphere.query for a single query point (one row of the batch): embed the
query point (recording the radius, always `embedRadius`), run the underlying
k-NN search, convert the chord distances, pass the indices through. -/
noncomputable def KDSphere.queryOne (s : KDSphere) (q : AngularPoint) (k : ℕ) :
    List (Option ℝ) × List ℕ :=
  let q3 := spherical_to_cartesian q
  let rows := s.kdtree.knnRows q3 k
  (convertDists embedRadius (rows.map Prod.fst), rows.map Prod.snd)

/-- KDSphere.query over a batch of query points: per-row application of
queryOne, yielding the (M, k) distance and index arrays. -/
noncomputable def KDSphere.query (s : KDSphere) (qs : List AngularPoint) (k : ℕ) :
    List (List (Option ℝ)) × List (List ℕ) :=
  (qs.map (fun q => (s.queryOne q k).1), qs.map (fun q => (s.queryOne q k).2))

/-- The polymorphic data argument of KDSphere.query_ball_tree: an already
built cKDTree (or KDTree), another KDSphere, or raw angular points. -/
inductive QBTInput where
  | tree (t : CKDTree)
  | sphere (s : KDSphere)
  | raw (ps : List AngularPoint)

/-- KDSphere.query_ball_tree (kdsphere.py lines 68-76): choose the other
cKDTree by the runtime type of data, then delegate the join with the radius
passed through unchanged. -/
noncomputable def KDSphere.query_ball_tree (s : KDSphere) (data : QBTInput) (r : ℝ) :
    List (Set ℕ) :=
  let other_kdtree :=
    match data with
    | .tree t => t
    | .sphere o => o.kdtree
    | .raw ps => (KDSphere.mk_init ps).kdtree
  s.kdtree.query_ball_tree other_kdtree r

/-- The polymorphic data argument of KDSphere.query_ball_point: a single
(lon, lat) pair or a sequence of pairs. -/
inductive QBPInput where
  | single (p : AngularPoint)
  | batch (ps : List AngularPoint)

/-- np.atleast_2d on the query argument: a bare pair becomes one row, a
sequence of pairs is kept as is. -/
def QBPInput.atleast2d : QBPInput → List AngularPoint
  | .single p => [p]
  | .batch ps => ps

/-- The result of query_ball_point: a flat list of indices, or a list of
lists (here: sets of indices, since the within-set order is the external
structure's). -/
inductive QBPOutput where
  | flat (s : Set ℕ)
  | nested (ss : List (Set ℕ))

/-- Whether a query_ball_point result is the nested (list-of-lists) form. -/
def QBPOutput.isNested : QBPOutput → Bool
  | .flat _ => false
  | .nested _ => true

/-- The sequence of per-query result sets carried by a query_ball_point
result (a flat result carries exactly one). -/
def QBPOutput.outSets : QBPOutput → List (Set ℕ)
  | .flat s => [s]
  | .nested ss => ss

/-- The set carried by a flat query_ball_point result (empty for nested). -/
def QBPOutput.flatSet : QBPOutput → Set ℕ
  | .flat s => s
  | .nested _ => ∅

/-- KDSphere.query_ball_point (kdsphere.py lines 78-109): embed the
at-least-2D query data, run the per-point ball query with the radius passed
through unchanged, and unwrap the result when the first dimension is 1. -/
noncomputable def KDSphere.query_ball_point (s : KDSphere) (data : QBPInput) (r : ℝ) :
    QBPOutput :=
  let rows := data.atleast2d
  let data3d := rows.map spherical_to_cartesian
  let results := data3d.map (fun q3 => s.kdtree.ballPointSet q3 r)
  if rows.length = 1 then .flat results.headI else .nested results

/-- Great-circle angular distance between two unit-sphere points, expressed
through the chord as in spec section 4.1: angle = 2*arcsin(chord / 2). -/
noncomputable def greatCircleDist (u v : Point3) : ℝ :=
  2 * Real.arcsin (dist3 u v / 2)

/-! ### Basic facts about the embedding and the modelled cKDTree -/

/-- Every embedded point lies on the unit sphere (spec section 8, first
testable property). -/
theorem normSq_embed (p : AngularPoint) :
    (spherical_to_cartesian p).x ^ 2 + (spherical_to_cartesian p).y ^ 2 +
      (spherical_to_cartesian p).z ^ 2 = 1 := by
  have ha := Real.sin_sq_add_cos_sq p.lat
  have hb := Real.sin_sq_add_cos_sq p.lon
  simp only [spherical_to_cartesian]
  nlinarith [ha, hb]

theorem dist3_nonneg (u v : Point3) : 0 ≤ dist3 u v := Real.sqrt_nonneg _

theorem dist3_le_two (u v : Point3)
    (hu : u.x ^ 2 + u.y ^ 2 + u.z ^ 2 = 1) (hv : v.x ^ 2 + v.y ^ 2 + v.z ^ 2 = 1) :
    dist3 u v ≤ 2 := by
  have hS : (u.x - v.x) ^ 2 + (u.y - v.y) ^ 2 + (u.z - v.z) ^ 2 ≤ 4 := by
    nlinarith [sq_nonneg (u.x + v.x), sq_nonneg (u.y + v.y), sq_nonneg (u.z + v.z)]
  have h4 : Real.sqrt 4 = 2 := by
    rw [show (4 : ℝ) = 2 ^ 2 by norm_num, Real.sqrt_sq (by norm_num : (0 : ℝ) ≤ 2)]
  calc dist3 u v ≤ Real.sqrt 4 := Real.sqrt_le_sqrt hS
    _ = 2 := h4

/-- Every (distance, index) row of the modelled k-NN result records the
Euclidean distance from the query to one of the stored points. -/
theorem knnRows_mem (t : CKDTree) (q : Point3) (k : ℕ) (row : ℝ × ℕ)
    (h : row ∈ t.knnRows q k) : ∃ p ∈ t.pts, row.1 = dist3 p q := by
  have h1 : row ∈ List.insertionSort rowLE ((t.pts.enum).map (fun ip => (dist3 ip.2 q, ip.1))) :=
    List.mem_of_mem_take h
  have h2 : row ∈ (t.pts.enum).map (fun ip => (dist3 ip.2 q, ip.1)) :=
    (List.perm_insertionSort rowLE _).mem_iff.mp h1
  rcases List.mem_map.mp h2 with ⟨ip, hip, hrow⟩
  refine ⟨ip.2, ?_, by rw [← hrow]⟩
  have := List.mem_enum_iff_getElem?.mp hip
  exact List.getElem?_mem this

/-- For a KDSphere built by __init__, every chord distance reported by the
underlying k-NN search lies in [0, 2]. -/
theorem knnRows_chord_bounds (data : List AngularPoint) (q3 : Point3)
    (hq : q3.x ^ 2 + q3.y ^ 2 + q3.z ^ 2 = 1) (k : ℕ) (row : ℝ × ℕ)
    (h : row ∈ (KDSphere.mk_init data).kdtree.knnRows q3 k) :
    0 ≤ row.1 ∧ row.1 ≤ 2 := by
  rcases knnRows_mem _ _ _ _ h with ⟨p, hp, hd⟩
  rcases List.mem_map.mp hp with ⟨a, _, ha⟩
  rw [hd]
  exact ⟨dist3_nonneg _ _, dist3_le_two _ _ (ha ▸ normSq_embed a) hq⟩

/-- The conversion entry is a real number (not NaN) whenever the chord
distance lies in [0, 2] and the radius is the recorded embedding radius 1. -/
theorem chordToAngle_some (d : ℝ) (h0 : 0 ≤ d) (h2 : d ≤ 2) :
    chordToAngle embedRadius d = some (2 * Real.arcsin (d * 0.5 / embedRadius)) := by
  have hdom : -1 ≤ d * 0.5 / embedRadius ∧ d * 0.5 / embedRadius ≤ 1 := by
    constructor <;> (simp only [embedRadius]; nlinarith)
  simp [chordToAngle, npArcsin, hdom]

/-- The modelled ball query over an empty tree finds nothing. -/
theorem ballPointSet_empty (q : Point3) (r : ℝ) :
    CKDTree.ballPointSet ⟨[]⟩ q r = ∅ := by
  ext j
  simp [CKDTree.ballPointSet]

/-- Every index reported by the modelled k-NN search is a position into the
stored point sequence. -/
theorem knnRows_idx_lt (t : CKDTree) (q : Point3) (k : ℕ) (row : ℝ × ℕ)
    (h : row ∈ t.knnRows q k) : row.2 < t.pts.length := by
  have h1 : row ∈ List.insertionSort rowLE ((t.pts.enum).map (fun ip => (dist3 ip.2 q, ip.1))) :=
    List.mem_of_mem_take h
  have h2 : row ∈ (t.pts.enum).map (fun ip => (dist3 ip.2 q, ip.1)) :=
    (List.perm_insertionSort rowLE _).mem_iff.mp h1
  rcases List.mem_map.mp h2 with ⟨ip, hip, hrow⟩
  have hg := List.mem_enum_iff_getElem?.mp hip
  have hlt := (List.getElem?_eq_some.mp hg).1
  rw [← hrow]
  exact hlt

/-! ### Claim theorems -/

/-- C7: an index built by KDSphere.__init__ stores as many embedded 3D points
as input angular points, the underlying cKDTree is built over exactly those
embedded points, and the inputs are stored verbatim; since every query
operation is a pure read of these fields, the equality holds for the whole
lifetime of the instance. -/
theorem kdsphere_init_counts (data : List AngularPoint) :
    (KDSphere.mk_init data).data3d.length = (KDSphere.mk_init data).data.length ∧
    (KDSphere.mk_init data).kdtree.pts = (KDSphere.mk_init data).data3d ∧
    (KDSphere.mk_init data).data = data := by
  refine ⟨?_, rfl, rfl⟩
  simp [KDSphere.mk_init]

/-- C6: query_ball_tree reuses an already-built cKDTree (or the cKDTree of
another KDSphere) directly, and only for raw angular input does it embed the
points and build a fresh transient structure over their embeddings. -/
theorem query_ball_tree_dispatch (s o : KDSphere) (t : CKDTree)
    (ps : List AngularPoint) (r : ℝ) :
    s.query_ball_tree (QBTInput.tree t) r = s.kdtree.query_ball_tree t r ∧
    s.query_ball_tree (QBTInput.sphere o) r = s.kdtree.query_ball_tree o.kdtree r ∧
    s.query_ball_tree (QBTInput.raw ps) r
      = s.kdtree.query_ball_tree ⟨ps.map spherical_to_cartesian⟩ r :=
  ⟨rfl, rfl, rfl⟩

/-- C5: query_ball_point returns a single flat set whenever the at-least-2D
input has first dimension 1 (a bare point and a length-1 sequence alike), and
a sequence of M per-query sets, in query order, for M greater than 1. -/
theorem query_ball_point_shape (s : KDSphere) (p p1 p2 : AngularPoint)
    (rest : List AngularPoint) (r : ℝ) :
    s.query_ball_point (QBPInput.single p) r
      = QBPOutput.flat (s.kdtree.ballPointSet (spherical_to_cartesian p) r) ∧
    s.query_ball_point (QBPInput.batch [p]) r
      = QBPOutput.flat (s.kdtree.ballPointSet (spherical_to_cartesian p) r) ∧
    s.query_ball_point (QBPInput.batch (p1 :: p2 :: rest)) r
      = QBPOutput.nested ((p1 :: p2 :: rest).map
          (fun q => s.kdtree.ballPointSet (spherical_to_cartesian q) r)) := by
  refine ⟨rfl, rfl, ?_⟩
  simp [KDSphere.query_ball_point, QBPInput.atleast2d]

/-- C4 counterexample: calling query_ball_point with a length-1 sequence does
not return a wrapped (nested) result; the code unwraps it to the flat set. -/
theorem query_ball_point_len1_unwrapped :
    ((KDSphere.mk_init [⟨0, 0⟩]).query_ball_point
      (QBPInput.batch [⟨0, 0⟩]) 1).isNested = false := rfl

/-- C4 (amended): query_ball_point with a length-1 sequence argument returns
the same flat set as the bare-point argument, not a length-1 nested sequence;
the two calls are indistinguishable. -/
theorem query_ball_point_len1_flat (s : KDSphere) (p : AngularPoint) (r : ℝ) :
    s.query_ball_point (QBPInput.batch [p]) r = s.query_ball_point (QBPInput.single p) r ∧
    (s.query_ball_point (QBPInput.batch [p]) r).isNested = false :=
  ⟨rfl, rfl⟩

/-- C2 counterexample: the conversion used by KDSphere.query does not clamp:
at chord distance 3 with the recorded radius 1 the ratio is 1.5 and the
result is NaN (none), not a real number. -/
theorem chordToAngle_nan_at_three : chordToAngle embedRadius 3 = none := by
  have h : ¬(-1 ≤ (3 : ℝ) * 0.5 / embedRadius ∧ (3 : ℝ) * 0.5 / embedRadius ≤ 1) := by
    simp only [embedRadius]
    norm_num
  simp [chordToAngle, npArcsin, h]

/-- C2 (amended): the conversion passes the raw ratio chord * 0.5 / r to
arcsin without clamping: a ratio inside [-1, 1] yields the real angular
distance 2 * arcsin(ratio), and a ratio outside it yields NaN (none). -/
theorem chordToAngle_no_clamp (r d : ℝ) :
    chordToAngle r d = if -1 ≤ d * 0.5 / r ∧ d * 0.5 / r ≤ 1
      then some (2 * Real.arcsin (d * 0.5 / r)) else none := by
  by_cases h : -1 ≤ d * 0.5 / r ∧ d * 0.5 / r ≤ 1 <;>
    simp [chordToAngle, npArcsin, h]

/-- C1: evaluation of the code at the failing input. The index holds the
single point (lon, lat) = (0, 0) and query_ball_point is called at
(pi/2, 0) with angular radius r = 3/2.  Because the code passes r to the
underlying Euclidean structure without converting it to the chord radius
2*sin(r/2), the returned set contains point 0 even though its great-circle
distance from the query, pi/2, exceeds 3/2; so the returned set is not the
set of points within 3/2 radians. -/
theorem query_ball_point_beyond_radius :
    0 ∈ ((KDSphere.mk_init [⟨0, 0⟩]).query_ball_point
        (QBPInput.single ⟨Real.pi / 2, 0⟩) (3 / 2)).flatSet ∧
    3 / 2 < greatCircleDist (spherical_to_cartesian ⟨0, 0⟩)
        (spherical_to_cartesian ⟨Real.pi / 2, 0⟩) := by
  have e1 : spherical_to_cartesian ⟨0, 0⟩ = ⟨1, 0, 0⟩ := by
    simp [spherical_to_cartesian]
  have e2 : spherical_to_cartesian ⟨Real.pi / 2, 0⟩ = ⟨0, 1, 0⟩ := by
    simp [spherical_to_cartesian]
  have hd : dist3 (⟨1, 0, 0⟩ : Point3) ⟨0, 1, 0⟩ = Real.sqrt 2 := by
    rw [dist3]
    norm_num
  constructor
  · show 0 ∈ (CKDTree.ballPointSet ⟨[spherical_to_cartesian ⟨0, 0⟩]⟩
      (spherical_to_cartesian ⟨Real.pi / 2, 0⟩) (3 / 2))
    refine ⟨by norm_num, ?_⟩
    show dist3 (spherical_to_cartesian ⟨0, 0⟩) (spherical_to_cartesian ⟨Real.pi / 2, 0⟩) ≤ 3 / 2
    rw [e1, e2, hd]
    nlinarith [Real.sq_sqrt (show (0 : ℝ) ≤ 2 by norm_num), Real.sqrt_nonneg 2]
  · rw [e1, e2, greatCircleDist, hd]
    rw [show Real.sqrt 2 / 2 = Real.sin (Real.pi / 4) by rw [Real.sin_pi_div_four]]
    rw [Real.arcsin_sin (by linarith [Real.pi_pos]) (by linarith [Real.pi_pos])]
    linarith [Real.pi_gt_three]

/-- C3: for an index built by __init__, the distances returned by query are
exactly 2 * arcsin(d / (2 * r)) for the chord distances d reported by the
underlying k-NN search, with r the radius recorded when embedding the query
point; the returned neighbor indices are the underlying structure's indices
into the original input order, unchanged. -/
theorem query_conversion_formula (data : List AngularPoint) (q : AngularPoint) (k : ℕ) :
    ((KDSphere.mk_init data).queryOne q k).1
      = ((KDSphere.mk_init data).kdtree.knnRows (spherical_to_cartesian q) k).map
          (fun row => some (2 * Real.arcsin (row.1 / (2 * embedRadius)))) ∧
    ((KDSphere.mk_init data).queryOne q k).2
      = ((KDSphere.mk_init data).kdtree.knnRows (spherical_to_cartesian q) k).map Prod.snd ∧
    ∀ j ∈ ((KDSphere.mk_init data).queryOne q k).2, j < data.length := by
  refine ⟨?_, rfl, ?_⟩
  · show convertDists embedRadius
        (((KDSphere.mk_init data).kdtree.knnRows (spherical_to_cartesian q) k).map Prod.fst) = _
    rw [convertDists, List.map_map]
    refine List.map_congr_left ?_
    intro row hrow
    rcases knnRows_chord_bounds data _ (normSq_embed q) k row hrow with ⟨h0, h2⟩
    have := chordToAngle_some row.1 h0 h2
    simp only [Function.comp_apply]
    rw [this]
    congr 1
    congr 1
    congr 1
    ring
  · intro j hj
    rcases List.mem_map.mp hj with ⟨row, hrow, hj2⟩
    have := knnRows_idx_lt _ _ _ _ hrow
    have hlen : (KDSphere.mk_init data).kdtree.pts.length = data.length := by
      simp [KDSphere.mk_init]
    rw [← hj2]
    rw [hlen] at this
    exact this

/-- C8: the angular distances returned by query for each query point are real
numbers in non-decreasing order. -/
theorem query_distances_sorted (data : List AngularPoint) (q : AngularPoint) (k : ℕ) :
    ∃ l : List ℝ, ((KDSphere.mk_init data).queryOne q k).1 = l.map some ∧
      l.Sorted (· ≤ ·) := by
  refine ⟨((KDSphere.mk_init data).kdtree.knnRows (spherical_to_cartesian q) k).map
      (fun row => 2 * Real.arcsin (row.1 * 0.5 / embedRadius)), ?_, ?_⟩
  · show convertDists embedRadius
        (((KDSphere.mk_init data).kdtree.knnRows (spherical_to_cartesian q) k).map Prod.fst) = _
    rw [convertDists, List.map_map, List.map_map]
    refine List.map_congr_left ?_
    intro row hrow
    rcases knnRows_chord_bounds data _ (normSq_embed q) k row hrow with ⟨h0, h2⟩
    simp only [Function.comp_apply]
    rw [chordToAngle_some row.1 h0 h2]
  · have hs : List.Sorted rowLE
        ((KDSphere.mk_init data).kdtree.knnRows (spherical_to_cartesian q) k) := by
      refine List.Pairwise.sublist (List.take_sublist _ _) ?_
      exact List.sorted_insertionSort rowLE _
    refine List.Pairwise.map _ ?_ hs
    intro a b hab
    have hmono : a.1 * 0.5 / embedRadius ≤ b.1 * 0.5 / embedRadius := by
      simp only [embedRadius]
      have : a.1 ≤ b.1 := hab
      linarith
    have := Real.monotone_arcsin hmono
    linarith

/-- C9: an index built over the empty point sequence is a valid KDSphere
(all stored sequences empty), and query, query_ball_tree and
query_ball_point all return empty results on it. -/
theorem empty_index_queries (q p : AngularPoint) (k : ℕ) (r : ℝ)
    (inp : QBTInput) (ps : List AngularPoint) :
    (KDSphere.mk_init []).data = [] ∧
    (KDSphere.mk_init []).data3d = [] ∧
    (KDSphere.mk_init []).queryOne q k = ([], []) ∧
    (KDSphere.mk_init []).query_ball_tree inp r = [] ∧
    (KDSphere.mk_init []).query_ball_point (QBPInput.single p) r = QBPOutput.flat ∅ ∧
    ∀ S ∈ ((KDSphere.mk_init []).query_ball_point (QBPInput.batch ps) r).outSets,
      S = ∅ := by
  refine ⟨rfl, rfl, ?_, ?_, ?_, ?_⟩
  · simp [KDSphere.queryOne, CKDTree.knnRows, convertDists, KDSphere.mk_init]
  · cases inp <;> rfl
  · show QBPOutput.flat
        (CKDTree.ballPointSet ⟨[]⟩ (spherical_to_cartesian p) r) = QBPOutput.flat ∅
    rw [ballPointSet_empty]
  · rcases ps with _ | ⟨a, _ | ⟨b, t⟩⟩ <;>
      simp [KDSphere.query_ball_point, QBPInput.atleast2d, QBPOutput.outSets,
        KDSphere.mk_init, ballPointSet_empty]

/-- C10: if the underlying k-NN search reports a chord distance whose ratio
d * 0.5 / r exceeds 1, query still returns (no error in the model, which is
total): the angular distance for that entry is NaN (none), every entry is
the conversion of its own chord distance (so in-domain entries are
unaffected), and the neighbor indices are returned unchanged. -/
theorem query_nan_entry (s : KDSphere) (q : AngularPoint) (k i : ℕ)
    (hi : i < (s.kdtree.knnRows (spherical_to_cartesian q) k).length)
    (hd : 1 < ((s.kdtree.knnRows (spherical_to_cartesian q) k)[i]).1 * 0.5 / embedRadius) :
    ((s.queryOne q k).1)[i]? = some none ∧
    (s.queryOne q k).2 = (s.kdtree.knnRows (spherical_to_cartesian q) k).map Prod.snd ∧
    ∀ j (hj : j < (s.kdtree.knnRows (spherical_to_cartesian q) k).length),
      ((s.queryOne q k).1)[j]?
        = some (chordToAngle embedRadius
            ((s.kdtree.knnRows (spherical_to_cartesian q) k)[j]).1) := by
  have key : ∀ j (hj : j < (s.kdtree.knnRows (spherical_to_cartesian q) k).length),
      ((s.queryOne q k).1)[j]?
        = some (chordToAngle embedRadius
            ((s.kdtree.knnRows (spherical_to_cartesian q) k)[j]).1) := by
    intro j hj
    show (convertDists embedRadius
        ((s.kdtree.knnRows (spherical_to_cartesian q) k).map Prod.fst))[j]? = _
    rw [convertDists, List.map_map, List.getElem?_map,
      List.getElem?_eq_getElem (by simpa using hj)]
    rfl
  have hnone : chordToAngle embedRadius
      ((s.kdtree.knnRows (spherical_to_cartesian q) k)[i]).1 = none := by
    have hcond : ¬(-1 ≤ ((s.kdtree.knnRows (spherical_to_cartesian q) k)[i]).1
        * 0.5 / embedRadius ∧
        ((s.kdtree.knnRows (spherical_to_cartesian q) k)[i]).1 * 0.5 / embedRadius ≤ 1) := by
      push_neg
      intro _
      linarith
    simp [chordToAngle, npArcsin, hcond]
  refine ⟨?_, rfl, key⟩
  rw [key i hi, hnone]

/-- Witness for C10: a tree that stores the point (4, 0, 0), which is chord
distance 3 from the embedded query (0, 0), makes the ratio 1.5; the first
returned angular distance is NaN (none). -/
theorem query_nan_entry_witness :
    ((KDSphere.queryOne ⟨[], [], ⟨[(⟨4, 0, 0⟩ : Point3)]⟩⟩ ⟨0, 0⟩ 1).1)[0]? = some none := by
  have hemb : spherical_to_cartesian ⟨0, 0⟩ = ⟨1, 0, 0⟩ := by
    simp [spherical_to_cartesian]
  have hdist : dist3 ⟨4, 0, 0⟩ ⟨1, 0, 0⟩ = 3 := by
    rw [dist3]
    norm_num
    rw [show (9 : ℝ) = 3 ^ 2 by norm_num]
    exact Real.sqrt_sq (by norm_num)
  have hlen : 0 < (((⟨[], [], ⟨[(⟨4, 0, 0⟩ : Point3)]⟩⟩ : KDSphere)).kdtree.knnRows
      (spherical_to_cartesian ⟨0, 0⟩) 1).length := Nat.one_pos
  have hd : (1 : ℝ) < ((((⟨[], [], ⟨[(⟨4, 0, 0⟩ : Point3)]⟩⟩ : KDSphere)).kdtree.knnRows
      (spherical_to_cartesian ⟨0, 0⟩) 1)[0]).1 * 0.5 / embedRadius := by
    show (1 : ℝ) < dist3 ⟨4, 0, 0⟩ (spherical_to_cartesian ⟨0, 0⟩) * 0.5 / embedRadius
    rw [hemb, hdist, embedRadius]
    norm_num
  exact (query_nan_entry ⟨[], [], ⟨[(⟨4, 0, 0⟩ : Point3)]⟩⟩ ⟨0, 0⟩ 1 0 hlen hd).1
